import Mathlib

/-!
Verification of the sizing, retry, state-machine and traceback-capture logic of
the subiquity install controller, embedded from
`subiquity/common/filesystem/sizes.py` and
`subiquity/server/controllers/install.py`.

Python integers are modelled as `Int`.  The places where the Python source
routes an integer computation through a float
(`int((available / sum_priorities) * priority)`, `math.ceil(0.25 * part_min)`,
`math.ceil(0.5 * source_min)`, `math.ceil(resize_window * (other_min / (other_min
+ install_min)))`) are modelled as the exact rational operation, truncated
(`Int.tdiv`) respectively ceiled (`ceil_div`) to an integer; concrete inputs
used below stay far from float-precision boundaries, where the two agree.
-/

namespace Subiquity

/-! ## Byte-size helpers

The constants `MiB` and `GiB` and the helpers `align_up` / `align_down` are
imported by `sizes.py` from `subiquity.models.filesystem`, a module that is not
among the sources; they are modelled from the spec.
-/

/-- Modelled from the spec: `MiB` from `subiquity.models.filesystem` (module missing
from the sources): one mebibyte. -/
def MiB : Int := 1024 * 1024

/-- Modelled from the spec: `GiB` from `subiquity.models.filesystem` (module missing
from the sources): one gibibyte. -/
def GiB : Int := 1024 * MiB

/-- Modelled from the spec: `align_up(size, block_size)` from
`subiquity.models.filesystem` (module missing from the sources): the smallest
multiple of `block_size` that is not smaller than `size`.  Here `/` is `Int.ediv`,
which agrees with Python's floor division `//` for positive divisors. -/
def align_up (size block_size : Int) : Int :=
  ((size + block_size - 1) / block_size) * block_size

/-- Modelled from the spec: `align_down(size, block_size)` from
`subiquity.models.filesystem` (module missing from the sources): the largest
multiple of `block_size` that is not larger than `size`. -/
def align_down (size block_size : Int) : Int :=
  (size / block_size) * block_size

/-- Exact version of Python `math.ceil(x / d)` for an integer quotient with `d > 0`. -/
def ceil_div (x d : Int) : Int := -(-x / d)

/-! ## The partition scaling allocator (`sizes.py`) -/

/-- Data model of `PartitionScaleFactors` (`sizes.py`): `minimum`, `priority` and
`maximum` in bytes, with `maximum == -1` the "absorb all remaining space" sentinel. -/
structure PartitionScaleFactors where
  minimum : Int
  priority : Int
  maximum : Int
deriving DecidableEq, Repr

/-- Constant `uefi_scale` from `sizes.py`. -/
def uefi_scale : PartitionScaleFactors :=
  { minimum := 538 * MiB, priority := 538, maximum := 1075 * MiB }

/-- Constant `bootfs_scale` from `sizes.py`. -/
def bootfs_scale : PartitionScaleFactors :=
  { minimum := 1792 * MiB, priority := 1024, maximum := 2048 * MiB }

/-- Constant `rootfs_scale` from `sizes.py`. -/
def rootfs_scale : PartitionScaleFactors :=
  { minimum := 900 * MiB, priority := 10000, maximum := -1 }

/-- Sum of the priorities of a factor list (`sum([factor.priority for factor in
all_factors])` in `scale_partitions`). -/
def sum_priorities (all_factors : List PartitionScaleFactors) : Int :=
  (all_factors.map (fun f => f.priority)).sum

/-- One loop iteration of `scale_partitions`: the clamped scaled size appended to
`ret` for the factor `cur`.  Python computes
`scaled = int((available_space / sum_priorities) * cur.priority)` through a float;
this is modelled as the exact truncated quotient. -/
def scaled_entry (available_space sum_p : Int) (cur : PartitionScaleFactors) : Int :=
  let scaled := Int.tdiv (available_space * cur.priority) sum_p
  if scaled < cur.minimum then cur.minimum
  else if scaled > cur.maximum then cur.maximum
  else scaled

/-- The list `ret` built by the loop of `scale_partitions`, before the `-1`
sentinel replacement. -/
def raw_scaled (all_factors : List PartitionScaleFactors) (available_space : Int) :
    List Int :=
  all_factors.map (scaled_entry available_space (sum_priorities all_factors))

/-- `scale_partitions(all_factors, available_space)` from `sizes.py`: clamp each
factor's proportional share into `[minimum, maximum]`, then, if a literal `-1`
is present in the result, give `available_space - sum(filter(!= -1, ret))` to the
first such entry (`ret[ret.index(-1)]`). -/
def scale_partitions (all_factors : List PartitionScaleFactors)
    (available_space : Int) : List Int :=
  if (-1 : Int) ∈ raw_scaled all_factors available_space then
    (raw_scaled all_factors available_space).set
      ((raw_scaled all_factors available_space).indexOf (-1))
      (available_space -
        ((raw_scaled all_factors available_space).filter (fun x => x != -1)).sum)
  else
    raw_scaled all_factors available_space

/-! ## Clamping behaviour of a single `scale_partitions` loop iteration -/

lemma scaled_entry_mem_bounds (a P : Int) (cur : PartitionScaleFactors)
    (hmin : 0 ≤ cur.minimum) (hmm : cur.minimum ≤ cur.maximum) :
    cur.minimum ≤ scaled_entry a P cur ∧ scaled_entry a P cur ≤ cur.maximum := by
  simp only [scaled_entry]
  split_ifs <;> omega

lemma scaled_entry_ne_neg_one (a P : Int) (cur : PartitionScaleFactors)
    (hmin : 0 ≤ cur.minimum) (hmm : cur.maximum ≠ -1) :
    scaled_entry a P cur ≠ -1 := by
  simp only [scaled_entry]
  split_ifs <;> omega

lemma scaled_entry_eq_neg_one (a P : Int) (cur : PartitionScaleFactors)
    (hmin : 0 ≤ cur.minimum) (hmm : cur.maximum = -1)
    (hs : cur.minimum ≤ Int.tdiv (a * cur.priority) P) :
    scaled_entry a P cur = -1 := by
  simp only [scaled_entry]
  split_ifs <;> omega

lemma raw_scaled_count_neg_one (factors : List PartitionScaleFactors) (a : Int)
    (hmin : ∀ f ∈ factors, 0 ≤ f.minimum)
    (hs : ∀ f ∈ factors, f.maximum = -1 →
      f.minimum ≤ Int.tdiv (a * f.priority) (sum_priorities factors)) :
    (raw_scaled factors a).count (-1) =
      factors.countP (fun f => f.maximum == -1) := by
  unfold raw_scaled
  rw [List.count_eq_countP, List.countP_map]
  apply List.countP_congr
  intro f hf
  simp only [Function.comp_apply, beq_iff_eq]
  constructor
  · intro h
    by_contra hne
    exact scaled_entry_ne_neg_one a (sum_priorities factors) f (hmin f hf) hne h
  · intro h
    exact scaled_entry_eq_neg_one a (sum_priorities factors) f (hmin f hf) h (hs f hf h)

/-- Replacing the unique `-1` of a list by `a` minus the sum of the other entries
makes the whole list sum to `a` (the arithmetic core of the sentinel replacement
in `scale_partitions`). -/
lemma sum_set_indexOf_neg_one (l : List Int) (a : Int) (h : l.count (-1) = 1) :
    (l.set (l.indexOf (-1)) (a - (l.filter (fun x => x != -1)).sum)).sum = a := by
  induction l generalizing a with
  | nil => simp at h
  | cons b t ih =>
    rw [List.count_cons] at h
    by_cases hb : b = -1
    · subst hb
      have hcnt : t.count (-1) = 0 := by simpa using h
      have hnot : (-1 : Int) ∉ t := List.count_eq_zero.mp hcnt
      have hfil : t.filter (fun x => x != -1) = t := by
        apply List.filter_eq_self.mpr
        intro x hx
        simp only [bne_iff_ne, ne_eq, decide_eq_true_eq]
        intro hx1
        exact hnot (hx1 ▸ hx)
      simp [List.indexOf_cons, List.filter_cons, hfil]
    · have hcnt : t.count (-1) = 1 := by simpa [hb] using h
      have hidx : (b :: t).indexOf (-1) = t.indexOf (-1) + 1 := by
        simp [List.indexOf_cons, hb]
      have hfil : (b :: t).filter (fun x => x != -1) =
          b :: t.filter (fun x => x != -1) := by
        simp [List.filter_cons, hb]
      rw [hidx, hfil, List.sum_cons, List.set_cons_succ, List.sum_cons]
      have harg : a - (b + (t.filter (fun x => x != -1)).sum) =
          (a - b) - (t.filter (fun x => x != -1)).sum := by ring
      rw [harg, ih (a - b) hcnt]
      ring

/-- C1 is false as stated: with the factor list
`[{min 5, prio 9, max 200}, {min 90, prio 1, max -1}]` and `available = 100`
(exactly one `maximum == -1` factor, and `available ≥ Σ minimum = 95`), the
sentinel factor's proportional share (10) falls below its minimum, so the loop
appends `90` instead of the `-1` sentinel, no replacement happens, and the
output `[90, 90]` sums to 180, not 100.  (All divisions involved are exact, so
Python's float arithmetic agrees.) -/
theorem scale_partitions_sum_counterexample :
    (([⟨5, 9, 200⟩, ⟨90, 1, -1⟩] : List PartitionScaleFactors).countP
        (fun f => f.maximum == -1) = 1) ∧
    ((([⟨5, 9, 200⟩, ⟨90, 1, -1⟩] : List PartitionScaleFactors).map
        (fun f => f.minimum)).sum ≤ 100) ∧
    scale_partitions [⟨5, 9, 200⟩, ⟨90, 1, -1⟩] 100 = [90, 90] ∧
    (scale_partitions [⟨5, 9, 200⟩, ⟨90, 1, -1⟩] 100).sum ≠ 100 := by decide

/-- C1 (amended): if the factor list has exactly one `maximum == -1` entry, all
minimums are nonnegative, the priority sum is positive,
`available ≥ Σ minimum`, and additionally the `maximum == -1` factor's scaled
share `int(available * priority / Σ priority)` is at least its minimum (so that
the `-1` sentinel is actually produced by the clamping loop), then the output of
`scale_partitions` sums exactly to `available`. -/
theorem scale_partitions_sum_eq_available
    (factors : List PartitionScaleFactors) (available : Int)
    (hone : factors.countP (fun f => f.maximum == -1) = 1)
    (hmins : ∀ f ∈ factors, 0 ≤ f.minimum)
    (hP : 0 < sum_priorities factors)
    (havail : (factors.map (fun f => f.minimum)).sum ≤ available)
    (hsent : ∀ f ∈ factors, f.maximum = -1 →
      f.minimum ≤ Int.tdiv (available * f.priority) (sum_priorities factors)) :
    (scale_partitions factors available).sum = available := by
  have hcount : (raw_scaled factors available).count (-1) = 1 :=
    (raw_scaled_count_neg_one factors available hmins hsent).trans hone
  have hmem : (-1 : Int) ∈ raw_scaled factors available :=
    List.count_pos_iff.mp (by omega)
  unfold scale_partitions
  rw [if_pos hmem]
  exact sum_set_indexOf_neg_one _ _ hcount

/-- Witness for C1 (amended) at the spec's own scenario: the
`{uefi, bootfs, rootfs}` factors with 20 GiB available. -/
theorem scale_partitions_sum_eq_available_witness :
    (scale_partitions [uefi_scale, bootfs_scale, rootfs_scale] (20 * GiB)).sum =
      20 * GiB :=
  scale_partitions_sum_eq_available [uefi_scale, bootfs_scale, rootfs_scale]
    (20 * GiB) (by decide) (by decide) (by decide) (by decide) (by decide)

/-- C2 is false as stated: with factors
`[{min 25, prio 30, max -1}, {min 40, prio 1, max 50}, {min 0, prio 69, max 40}]`
and `available = 100` (the shares are 30, 1 and 69; the second factor is clamped
up to 40, the third down to 40), the sentinel replacement assigns
`100 - 80 = 20` to the first factor, below its minimum of 25 — even though the
data-model invariants hold (`available ≥ Σ minimum = 65`, one sentinel).
All divisions involved are exact, so Python's float arithmetic agrees. -/
theorem scale_partitions_entry_counterexample :
    (([⟨25, 30, -1⟩, ⟨40, 1, 50⟩, ⟨0, 69, 40⟩] :
        List PartitionScaleFactors).countP (fun f => f.maximum == -1) = 1) ∧
    ((([⟨25, 30, -1⟩, ⟨40, 1, 50⟩, ⟨0, 69, 40⟩] :
        List PartitionScaleFactors).map (fun f => f.minimum)).sum ≤ 100) ∧
    (([⟨25, 30, -1⟩, ⟨40, 1, 50⟩, ⟨0, 69, 40⟩] :
        List PartitionScaleFactors)[0]?.map (fun f => f.minimum) = some 25) ∧
    (scale_partitions [⟨25, 30, -1⟩, ⟨40, 1, 50⟩, ⟨0, 69, 40⟩] 100)[0]? =
      some 20 ∧
    ¬ (25 : Int) ≤ 20 := by decide

/-- C2 (amended): for factor lists whose minimums are nonnegative and which
satisfy the data-model invariant `minimum ≤ maximum` for every non-sentinel
factor, every output entry whose factor has `maximum ≠ -1` satisfies
`minimum ≤ entry ≤ maximum`.  (The entry of the `maximum == -1` factor can fall
below its minimum, per the counterexample.) -/
theorem scale_partitions_entry_bounds
    (factors : List PartitionScaleFactors) (available : Int)
    (hmins : ∀ f ∈ factors, 0 ≤ f.minimum)
    (hminmax : ∀ f ∈ factors, f.maximum ≠ -1 → f.minimum ≤ f.maximum)
    (i : ℕ) (f : PartitionScaleFactors) (v : Int)
    (hf : factors[i]? = some f)
    (hmax : f.maximum ≠ -1)
    (hv : (scale_partitions factors available)[i]? = some v) :
    f.minimum ≤ v ∧ v ≤ f.maximum := by
  have hfm : f ∈ factors := by
    obtain ⟨hlen, hget⟩ := List.getElem?_eq_some.mp hf
    exact hget ▸ List.getElem_mem hlen
  have hraw : (raw_scaled factors available)[i]? =
      some (scaled_entry available (sum_priorities factors) f) := by
    unfold raw_scaled
    rw [List.getElem?_map, hf]
    rfl
  have hbounds := scaled_entry_mem_bounds available (sum_priorities factors) f
    (hmins f hfm) (hminmax f hfm hmax)
  have hne := scaled_entry_ne_neg_one available (sum_priorities factors) f
    (hmins f hfm) hmax
  unfold scale_partitions at hv
  by_cases hmem : (-1 : Int) ∈ raw_scaled factors available
  · rw [if_pos hmem, List.getElem?_set] at hv
    by_cases hidx : (raw_scaled factors available).indexOf (-1) = i
    · exfalso
      have hlt : (raw_scaled factors available).indexOf (-1) <
          (raw_scaled factors available).length :=
        List.indexOf_lt_length.mpr hmem
      have hval : (raw_scaled factors available)[(raw_scaled factors
          available).indexOf (-1)] = -1 := List.getElem_indexOf hlt
      have hsome : (raw_scaled factors available)[(raw_scaled factors
          available).indexOf (-1)]? = some (-1) := by
        rw [List.getElem?_eq_getElem hlt, hval]
      rw [hidx, hraw] at hsome
      exact hne (by simpa using hsome)
    · rw [if_neg hidx, hraw] at hv
      obtain rfl : scaled_entry available (sum_priorities factors) f = v := by
        simpa using hv
      exact hbounds
  · rw [if_neg hmem, hraw] at hv
    obtain rfl : scaled_entry available (sum_priorities factors) f = v := by
      simpa using hv
    exact hbounds

/-- Witness for C2 (amended): the uefi entry of the 20 GiB scenario lies within
the uefi factor's `[minimum, maximum]` range. -/
theorem scale_partitions_entry_bounds_witness :
    uefi_scale.minimum ≤ 999261548 ∧ (999261548 : Int) ≤ uefi_scale.maximum :=
  scale_partitions_entry_bounds [uefi_scale, bootfs_scale, rootfs_scale]
    (20 * GiB) (by decide) (by decide) 0 uefi_scale 999261548 (by decide)
    (by decide) (by decide)

/-! ## Arithmetic facts about `align_up`, `align_down` and `ceil_div` -/

lemma align_up_ge {a : Int} (ha : 0 < a) (x : Int) : x ≤ align_up x a := by
  have h1 : x + a - 1 < ((x + a - 1) / a + 1) * a :=
    Int.lt_ediv_add_one_mul_self (x + a - 1) ha
  have h2 : ((x + a - 1) / a + 1) * a = align_up x a + a := by
    unfold align_up; ring
  linarith

lemma align_up_mono {a x y : Int} (ha : 0 < a) (h : x ≤ y) :
    align_up x a ≤ align_up y a := by
  unfold align_up
  have hd := Int.ediv_le_ediv ha (show x + a - 1 ≤ y + a - 1 by omega)
  exact mul_le_mul_of_nonneg_right hd (by omega)

lemma align_down_le {a : Int} (ha : 0 < a) (x : Int) : align_down x a ≤ x := by
  unfold align_down
  exact Int.ediv_mul_le x (by omega)

lemma mul_le_align_down {a k x : Int} (ha : 0 < a) (h : a * k ≤ x) :
    a * k ≤ align_down x a := by
  unfold align_down
  have hk : k ≤ x / a := (Int.le_ediv_iff_mul_le ha).mpr (by linarith)
  have hm : k * a ≤ (x / a) * a := mul_le_mul_of_nonneg_right hk (by omega)
  linarith

lemma align_up_mul {a : Int} (ha : 0 < a) (k : Int) : align_up (a * k) a = a * k := by
  unfold align_up
  have he : a * k + a - 1 = (a - 1) + k * a := by ring
  rw [he, Int.add_mul_ediv_right _ _ (show a ≠ 0 by omega),
    Int.ediv_eq_zero_of_lt (by omega) (by omega)]
  ring

lemma align_up_dvd (a x : Int) : ∃ k, align_up x a = a * k :=
  ⟨(x + a - 1) / a, by unfold align_up; ring⟩

lemma align_down_dvd (a x : Int) : ∃ k, align_down x a = a * k :=
  ⟨x / a, by unfold align_down; ring⟩

lemma align_up_le_mul {a x k : Int} (ha : 0 < a) (h : x ≤ a * k) :
    align_up x a ≤ a * k :=
  (align_up_mono ha h).trans (le_of_eq (align_up_mul ha k))

lemma ceil_div_le {d x k : Int} (hd : 0 < d) (h : x ≤ k * d) : ceil_div x d ≤ k := by
  have e : (-k) * d = -(k * d) := by ring
  have h2 : (-k) * d ≤ -x := by linarith
  have h3 : -k ≤ (-x) / d := (Int.le_ediv_iff_mul_le hd).mpr h2
  unfold ceil_div
  linarith

lemma ceil_div_nonneg {d x : Int} (hd : 0 < d) (hx : 0 ≤ x) : 0 ≤ ceil_div x d := by
  have h1 : (-x) / d ≤ 0 / d := Int.ediv_le_ediv hd (by omega)
  rw [Int.zero_ediv] at h1
  unfold ceil_div
  linarith

lemma ceil_div_mono {d x y : Int} (hd : 0 < d) (h : x ≤ y) :
    ceil_div x d ≤ ceil_div y d := by
  have h1 := Int.ediv_le_ediv hd (show -y ≤ -x by omega)
  unfold ceil_div
  linarith

/-! ## Guided resize (`sizes.py`) -/

/-- Data model of `GuidedResizeValues` (`subiquity.common.types.storage`, consumed
by `calculate_guided_resize`). -/
structure GuidedResizeValues where
  install_max : Int
  minimum : Int
  recommended : Int
  maximum : Int
deriving DecidableEq, Repr

/-- `calculate_guided_resize(part_min, part_size, install_min, part_align)` from
`sizes.py`.  Python computes `ratio = other_min / (other_min + install_min)` as a
float and then `math.ceil(resize_window * ratio)`; this is modelled as the exact
`ceil_div (resize_window * other_min) (other_min + install_min)`, and
`math.ceil(0.25 * part_min)` as `ceil_div part_min 4`. -/
def calculate_guided_resize (part_min part_size install_min part_align : Int) :
    Option GuidedResizeValues :=
  if part_min < 0 then none
  else
    let part_size' := align_up part_size part_align
    let other_room_to_grow := max (2 * GiB) (ceil_div part_min 4)
    let padded_other_min := part_min + other_room_to_grow
    let other_min := min (align_up padded_other_min part_align) part_size'
    let plausible_free_space := part_size' - other_min
    if plausible_free_space < install_min then none
    else
      let other_max := align_down (part_size' - install_min) part_align
      let resize_window := other_max - other_min
      let raw_recommended :=
        ceil_div (resize_window * other_min) (other_min + install_min) + other_min
      let recommended := align_up raw_recommended part_align
      some { install_max := plausible_free_space, minimum := other_min,
             recommended := recommended, maximum := other_max }

/-- The `other_min` quantity of `calculate_guided_resize`, as the claim spells it
out: `min(align_up(part_min + max(2GiB, ceil(0.25*part_min)), align),
align_up(part_size, align))`. -/
def resize_other_min (part_min part_size part_align : Int) : Int :=
  min (align_up (part_min + max (2 * GiB) (ceil_div part_min 4)) part_align)
    (align_up part_size part_align)

/-- Property of the non-null result of `calculate_guided_resize`:
`minimum ≤ recommended ≤ maximum` and `maximum` equals the given value. -/
def resize_bounds_ok (o : Option GuidedResizeValues) (om : Int) : Prop :=
  match o with
  | none => True
  | some g => g.minimum ≤ g.recommended ∧ g.recommended ≤ g.maximum ∧ g.maximum = om

/-- Core bounds argument for the `some` branch of `calculate_guided_resize`:
for an `other_min` that is a nonnegative multiple of the alignment and leaves at
least `install_min` of space, the aligned recommendation stays within
`[other_min, other_max]`. -/
lemma resize_recommended_bounds {A im ps' om : Int} (ha : 0 < A) (hi : 0 < im)
    (hom0 : 0 ≤ om) (hdvd : ∃ k, om = A * k) (hfree : im ≤ ps' - om) :
    om ≤ align_up (ceil_div ((align_down (ps' - im) A - om) * om) (om + im) + om) A ∧
    align_up (ceil_div ((align_down (ps' - im) A - om) * om) (om + im) + om) A ≤
      align_down (ps' - im) A := by
  obtain ⟨k, hk⟩ := hdvd
  have hom_le : om ≤ align_down (ps' - im) A := by
    rw [hk]
    exact mul_le_align_down ha (by omega)
  have hw : 0 ≤ align_down (ps' - im) A - om := by omega
  have hdenom : 0 < om + im := by omega
  have hc0 : 0 ≤ ceil_div ((align_down (ps' - im) A - om) * om) (om + im) :=
    ceil_div_nonneg hdenom (mul_nonneg hw hom0)
  have hcw : ceil_div ((align_down (ps' - im) A - om) * om) (om + im) ≤
      align_down (ps' - im) A - om :=
    ceil_div_le hdenom (mul_le_mul_of_nonneg_left (by omega) hw)
  constructor
  · exact le_trans (by omega) (align_up_ge ha _)
  · obtain ⟨k2, hk2⟩ := align_down_dvd A (ps' - im)
    rw [hk2] at hcw hom_le ⊢
    exact align_up_le_mul ha (by omega)

/-- C3: `calculate_guided_resize` returns none exactly when `part_min < 0` or
when, with `part_size` aligned up and `other_min` as the claim defines it,
`part_size - other_min < install_min`; and whenever the result is non-null,
`minimum ≤ recommended ≤ maximum` with
`maximum = align_down(part_size - install_min, align)` (aligned-up `part_size`).
Stated for a positive alignment and a positive `install_min` (the byte sizes the
caller passes; with `install_min = 0` and `part_size = 0` the Python code would
divide by zero instead of returning). -/
theorem calculate_guided_resize_spec (part_min part_size install_min part_align : Int)
    (ha : 0 < part_align) (hi : 0 < install_min) :
    (calculate_guided_resize part_min part_size install_min part_align = none ↔
      part_min < 0 ∨
        align_up part_size part_align -
          resize_other_min part_min part_size part_align < install_min) ∧
    resize_bounds_ok
      (calculate_guided_resize part_min part_size install_min part_align)
      (align_down (align_up part_size part_align - install_min) part_align) := by
  by_cases h1 : part_min < 0
  · constructor
    · simp [calculate_guided_resize, h1]
    · simp [calculate_guided_resize, h1, resize_bounds_ok]
  · by_cases h2 : align_up part_size part_align -
        min (align_up (part_min + max (2 * GiB) (ceil_div part_min 4)) part_align)
          (align_up part_size part_align) < install_min
    · constructor
      · simp only [calculate_guided_resize, resize_other_min]
        rw [if_neg h1, if_pos h2]
        simp [resize_other_min, h2]
      · simp only [calculate_guided_resize]
        rw [if_neg h1, if_pos h2]
        simp [resize_bounds_ok]
    · have hres : calculate_guided_resize part_min part_size install_min part_align =
          some { install_max := align_up part_size part_align -
                   min (align_up (part_min + max (2 * GiB) (ceil_div part_min 4))
                     part_align) (align_up part_size part_align),
                 minimum := min (align_up (part_min + max (2 * GiB)
                   (ceil_div part_min 4)) part_align) (align_up part_size part_align),
                 recommended := align_up
                   (ceil_div ((align_down (align_up part_size part_align - install_min)
                       part_align -
                     min (align_up (part_min + max (2 * GiB) (ceil_div part_min 4))
                       part_align) (align_up part_size part_align)) *
                     min (align_up (part_min + max (2 * GiB) (ceil_div part_min 4))
                       part_align) (align_up part_size part_align))
                     (min (align_up (part_min + max (2 * GiB) (ceil_div part_min 4))
                       part_align) (align_up part_size part_align) + install_min) +
                    min (align_up (part_min + max (2 * GiB) (ceil_div part_min 4))
                      part_align) (align_up part_size part_align)) part_align,
                 maximum := align_down (align_up part_size part_align - install_min)
                   part_align } := by
        simp only [calculate_guided_resize]
        rw [if_neg h1, if_neg h2]
      constructor
      · rw [hres]
        simp only [resize_other_min]
        constructor
        · intro hcon
          exact Option.noConfusion hcon
        · intro hcon
          rcases hcon with hc | hc
          · exact absurd hc h1
          · exact absurd hc h2
      · rw [hres]
        unfold resize_bounds_ok
        have hom0 : 0 ≤ min (align_up (part_min + max (2 * GiB) (ceil_div part_min 4))
            part_align) (align_up part_size part_align) := by
          rcases le_total (align_up (part_min + max (2 * GiB) (ceil_div part_min 4))
              part_align) (align_up part_size part_align) with hc | hc
          · rw [min_eq_left hc]
            have hpad : 0 ≤ part_min + max (2 * GiB) (ceil_div part_min 4) := by
              have hg : (0 : Int) < 2 * GiB := by norm_num [GiB, MiB]
              have := le_max_left (2 * GiB) (ceil_div part_min 4)
              omega
            exact hpad.trans (align_up_ge ha _)
          · exfalso
            rw [min_eq_right hc] at h2
            omega
        have hdvd : ∃ k, min (align_up (part_min + max (2 * GiB) (ceil_div part_min 4))
            part_align) (align_up part_size part_align) = part_align * k := by
          rcases le_total (align_up (part_min + max (2 * GiB) (ceil_div part_min 4))
              part_align) (align_up part_size part_align) with hc | hc
          · rw [min_eq_left hc]
            exact align_up_dvd part_align _
          · rw [min_eq_right hc]
            exact align_up_dvd part_align part_size
        have hb := resize_recommended_bounds ha hi hom0 hdvd
          (show install_min ≤ align_up part_size part_align -
            min (align_up (part_min + max (2 * GiB) (ceil_div part_min 4)) part_align)
              (align_up part_size part_align) by omega)
        exact ⟨hb.1, hb.2, rfl⟩

/-- Witness for C3 at `part_min = 2 GiB`, `part_size = 10 GiB`,
`install_min = 5 GiB`, `part_align = 1 MiB`. -/
theorem calculate_guided_resize_spec_witness :
    (calculate_guided_resize (2 * GiB) (10 * GiB) (5 * GiB) MiB = none ↔
      2 * GiB < 0 ∨
        align_up (10 * GiB) MiB - resize_other_min (2 * GiB) (10 * GiB) MiB <
          5 * GiB) ∧
    resize_bounds_ok (calculate_guided_resize (2 * GiB) (10 * GiB) (5 * GiB) MiB)
      (align_down (align_up (10 * GiB) MiB - 5 * GiB) MiB) :=
  calculate_guided_resize_spec (2 * GiB) (10 * GiB) (5 * GiB) MiB (by decide)
    (by decide)

/-- `calculate_suggested_install_min(source_min, part_align)` from `sizes.py`.
`math.ceil(0.5 * source_min)` is modelled as `ceil_div source_min 2`. -/
def calculate_suggested_install_min (source_min part_align : Int) : Int :=
  align_up (source_min + bootfs_scale.minimum + uefi_scale.minimum +
    max (2 * GiB) (ceil_div source_min 2)) part_align

/-- C9: `calculate_suggested_install_min` is monotonically non-decreasing in
`source_min` (for a positive alignment). -/
theorem calculate_suggested_install_min_mono (s1 s2 part_align : Int)
    (ha : 0 < part_align) (h : s1 ≤ s2) :
    calculate_suggested_install_min s1 part_align ≤
      calculate_suggested_install_min s2 part_align := by
  unfold calculate_suggested_install_min
  apply align_up_mono ha
  have hc : ceil_div s1 2 ≤ ceil_div s2 2 := ceil_div_mono (by norm_num) h
  have hm : max (2 * GiB) (ceil_div s1 2) ≤ max (2 * GiB) (ceil_div s2 2) :=
    max_le_max le_rfl hc
  omega

/-- Witness for C9 at `source_min` 4 GiB versus 8 GiB, 1 MiB alignment. -/
theorem calculate_suggested_install_min_mono_witness :
    calculate_suggested_install_min (4 * GiB) MiB ≤
      calculate_suggested_install_min (8 * GiB) MiB :=
  calculate_suggested_install_min_mono (4 * GiB) (8 * GiB) MiB (by decide)
    (by decide)

/-! ## The traceback extractor (`install.py`, class `TracebackExtractor`) -/

/-- Python's `str.isspace` characters relevant to the `\S` regex class. -/
def py_isspace (c : Char) : Bool :=
  c == ' ' || c == '\t' || c == '\n' || c == '\r' || c == '\x0b' || c == '\x0c'

/-- Whether `re.match(r"^Traceback \(most recent call last\):", line)` succeeds:
the line starts with the literal marker. -/
def start_marker_matches (line : String) : Bool :=
  "Traceback (most recent call last):".data.isPrefixOf line.data

/-- Whether `re.match(r"\S", line)` succeeds: the line is nonempty and its first
character is not whitespace (the line "begins at column 0"). -/
def end_marker_matches (line : String) : Bool :=
  match line.data with
  | [] => false
  | c :: _ => !(py_isspace c)

/-- State of `TracebackExtractor` (`install.py`): the accumulated `traceback`
lines and the `in_traceback` flag. -/
structure TracebackExtractor where
  traceback : List String
  in_traceback : Bool
deriving DecidableEq, Repr

/-- `TracebackExtractor.feed(line)` from `install.py`: two sequential `if`
statements — the first either arms capture on the start marker (only while the
buffer is empty) or closes capture on an end-marker line (appending it); the
second appends the line whenever capture is (still) armed. -/
def TracebackExtractor.feed (st : TracebackExtractor) (line : String) :
    TracebackExtractor :=
  let st1 :=
    if st.traceback = [] ∧ start_marker_matches line then
      { st with in_traceback := true }
    else if st.in_traceback ∧ end_marker_matches line then
      { traceback := st.traceback ++ [line], in_traceback := false }
    else st
  if st1.in_traceback then
    { st1 with traceback := st1.traceback ++ [line] }
  else st1

/-- Feeding a stream of log lines to the extractor, in order. -/
def feed_all (st : TracebackExtractor) (lines : List String) : TracebackExtractor :=
  lines.foldl TracebackExtractor.feed st

lemma feed_closed (st : TracebackExtractor) (line : String)
    (h1 : st.traceback ≠ []) (h2 : st.in_traceback = false) :
    st.feed line = st := by
  simp [TracebackExtractor.feed, h1, h2]

lemma feed_all_closed (lines : List String) (st : TracebackExtractor)
    (h1 : st.traceback ≠ []) (h2 : st.in_traceback = false) :
    feed_all st lines = st := by
  induction lines with
  | nil => rfl
  | cons l t ih =>
    show feed_all (st.feed l) t = st
    rw [feed_closed st l h1 h2]
    exact ih

lemma feed_no_capture (st : TracebackExtractor) (line : String)
    (h1 : st.traceback = []) (h2 : st.in_traceback = false)
    (h3 : start_marker_matches line = false) :
    st.feed line = st := by
  simp [TracebackExtractor.feed, h1, h2, h3]

lemma feed_all_no_capture (pre : List String) (st : TracebackExtractor)
    (h1 : st.traceback = []) (h2 : st.in_traceback = false)
    (hpre : ∀ l ∈ pre, start_marker_matches l = false) :
    feed_all st pre = st := by
  induction pre with
  | nil => rfl
  | cons l t ih =>
    show feed_all (st.feed l) t = st
    rw [feed_no_capture st l h1 h2 (hpre l (by simp))]
    exact ih fun x hx => hpre x (by simp [hx])

lemma feed_marker (st : TracebackExtractor) (line : String)
    (h1 : st.traceback = []) (hm : start_marker_matches line = true) :
    st.feed line = ⟨[line], true⟩ := by
  simp [TracebackExtractor.feed, h1, hm]

lemma feed_body_step (st : TracebackExtractor) (line : String)
    (h1 : st.in_traceback = true) (h2 : st.traceback ≠ [])
    (he : end_marker_matches line = false) :
    st.feed line = ⟨st.traceback ++ [line], true⟩ := by
  simp [TracebackExtractor.feed, h1, h2, he]

lemma feed_all_body (body : List String) (st : TracebackExtractor)
    (h1 : st.in_traceback = true) (h2 : st.traceback ≠ [])
    (hb : ∀ l ∈ body, end_marker_matches l = false) :
    feed_all st body = ⟨st.traceback ++ body, true⟩ := by
  induction body generalizing st with
  | nil =>
    cases st with
    | mk tb f => simp_all [feed_all]
  | cons l t ih =>
    show feed_all (st.feed l) t = _
    rw [feed_body_step st l h1 h2 (hb l (by simp))]
    rw [ih ⟨st.traceback ++ [l], true⟩ rfl (by simp) (fun x hx => hb x (by simp [hx]))]
    simp

lemma feed_closing (st : TracebackExtractor) (line : String)
    (h1 : st.in_traceback = true) (h2 : st.traceback ≠ [])
    (he : end_marker_matches line = true) :
    st.feed line = ⟨st.traceback ++ [line], false⟩ := by
  simp [TracebackExtractor.feed, h1, h2, he]

/-- C10 is false as stated: the captured buffer is non-empty as soon as the
marker line itself is stored, yet the following (indented) traceback body line
still changes the buffer. -/
theorem traceback_extractor_counterexample :
    (feed_all ⟨[], false⟩ ["Traceback (most recent call last):"]).traceback ≠ [] ∧
    (TracebackExtractor.feed
        (feed_all ⟨[], false⟩ ["Traceback (most recent call last):"])
        "  next line").traceback ≠
      (feed_all ⟨[], false⟩ ["Traceback (most recent call last):"]).traceback := by
  decide

/-- C10 (amended): the extractor captures at most one traceback per run: fed a
stream consisting of non-marker lines, then the first marker line, then body
lines not beginning at column 0, then the first line beginning at column 0,
then anything at all (later marker lines included), the buffer holds exactly the
marker line through that closing line; and once the capture has closed (buffer
non-empty and the in-traceback flag off), every later fed line leaves the
extractor state — in particular the buffer — unchanged. -/
theorem traceback_extractor_single_capture :
    (∀ (st : TracebackExtractor) (line : String),
      st.traceback ≠ [] → st.in_traceback = false → st.feed line = st) ∧
    (∀ (pre : List String) (marker : String) (body : List String)
        (closing : String) (rest : List String),
      (∀ l ∈ pre, start_marker_matches l = false) →
      start_marker_matches marker = true →
      (∀ l ∈ body, end_marker_matches l = false) →
      end_marker_matches closing = true →
      (feed_all ⟨[], false⟩
          (pre ++ marker :: (body ++ closing :: rest))).traceback =
        marker :: (body ++ [closing])) := by
  constructor
  · exact feed_closed
  · intro pre marker body closing rest hpre hm hb hc
    have e1 : feed_all ⟨[], false⟩ (pre ++ marker :: (body ++ closing :: rest)) =
        feed_all (feed_all ⟨[], false⟩ pre) (marker :: (body ++ closing :: rest)) := by
      simp [feed_all, List.foldl_append]
    rw [e1, feed_all_no_capture pre _ rfl rfl hpre]
    show (feed_all (TracebackExtractor.feed ⟨[], false⟩ marker)
        (body ++ closing :: rest)).traceback = _
    rw [feed_marker _ _ rfl hm]
    have e2 : feed_all ⟨[marker], true⟩ (body ++ closing :: rest) =
        feed_all (feed_all ⟨[marker], true⟩ body) (closing :: rest) := by
      simp [feed_all, List.foldl_append]
    rw [e2, feed_all_body body _ rfl (by simp) hb]
    show (feed_all (TracebackExtractor.feed ⟨[marker] ++ body, true⟩ closing)
        rest).traceback = _
    rw [feed_closing _ _ rfl (by simp) hc]
    rw [feed_all_closed rest _ (by simp) rfl]
    simp

/-- Witness for C10 (amended): a concrete stream with a prefix line, one
traceback, trailing lines and even a second marker line; only the first
traceback is captured. -/
theorem traceback_extractor_single_capture_witness :
    (feed_all ⟨[], false⟩
        (["before"] ++ "Traceback (most recent call last):" ::
          (["  File x", ""] ++ "ValueError: boom" ::
            ["after", "Traceback (most recent call last):"]))).traceback =
      "Traceback (most recent call last):" :: (["  File x", ""] ++ ["ValueError: boom"]) :=
  traceback_extractor_single_capture.2 ["before"]
    "Traceback (most recent call last):" ["  File x", ""] "ValueError: boom"
    ["after", "Traceback (most recent call last):"]
    (by decide) (by decide) (by decide) (by decide)

/-! ## Application states and the unattended-upgrades flow (`install.py`) -/

/-- The members of `subiquity.common.types.ApplicationState` referenced by
`install.py` (the full enumeration lives outside the sources). -/
inductive ApplicationState
  | WAITING
  | NEEDS_CONFIRMATION
  | RUNNING
  | UU_RUNNING
  | UU_CANCELLING
  | DONE
deriving DecidableEq, Repr

/-- External invocations issued by `stop_unattended_upgrades`. -/
inductive UUCommand
  | unattended_upgrade_shutdown_stop_only
  | terminate_subprocess
deriving DecidableEq, Repr

/-- `InstallController.stop_unattended_upgrades` (`install.py`): always runs the
`unattended-upgrade-shutdown --stop-only` command in the target chroot; in
dry-run mode, if an unattended-upgrades subprocess object is present, it
additionally terminates that subprocess. -/
def stop_unattended_upgrades (dry_run uu_cmd_present : Bool) : List UUCommand :=
  [UUCommand.unattended_upgrade_shutdown_stop_only] ++
    (if dry_run && uu_cmd_present then [UUCommand.terminate_subprocess] else [])

/-- `InstallController.stop_uu` (`install.py`): only when the application state
is `UU_RUNNING`, move to `UU_CANCELLING` and schedule
`stop_unattended_upgrades` as a background task; returns the new state and the
commands issued. -/
def stop_uu (state : ApplicationState) (dry_run uu_cmd_present : Bool) :
    ApplicationState × List UUCommand :=
  if state = ApplicationState.UU_RUNNING then
    (ApplicationState.UU_CANCELLING, stop_unattended_upgrades dry_run uu_cmd_present)
  else
    (state, [])

/-- C7: a `stop_uu` in state `UU_RUNNING` moves the state to `UU_CANCELLING` and
issues the graceful shutdown-only invocation exactly once; in any other state it
leaves the state unchanged and issues no invocation at all. -/
theorem stop_uu_spec :
    ∀ (st : ApplicationState) (dry_run uu_cmd_present : Bool),
      (stop_uu st dry_run uu_cmd_present).1 =
        (if st = ApplicationState.UU_RUNNING then ApplicationState.UU_CANCELLING
         else st) ∧
      (stop_uu st dry_run uu_cmd_present).2.count
          UUCommand.unattended_upgrade_shutdown_stop_only =
        (if st = ApplicationState.UU_RUNNING then 1 else 0) ∧
      ((stop_uu st dry_run uu_cmd_present).2 = [] ∨
        st = ApplicationState.UU_RUNNING) := by
  intro st dry_run uu_cmd_present
  cases st <;> cases dry_run <;> cases uu_cmd_present <;> decide

/-- A failed external command (`subprocess.CalledProcessError`). -/
structure CalledProcessError where
  returncode : Int
deriving DecidableEq, Repr

/-- The apt configuration fragments written by `run_unattended_upgrades`
(contents abstracted): the shared AC-power/metered fragment `uu_apt_conf`, plus
either `uu_apt_conf_update_all` or `uu_apt_conf_update_security`. -/
inductive AptConfFragment
  | uu_base
  | uu_update_all
  | uu_update_security
deriving DecidableEq, Repr

/-- Observable outcome of one `run_unattended_upgrades` call: the apt config
fragments written, whether the failure was logged, the context-description
annotation, and the values of `unattended_upgrades_cmd` /
`unattended_upgrades_ctx` after the call. -/
structure UURunOutcome where
  apt_conf : List AptConfFragment
  logged_failure : Bool
  description_override : Option String
  unattended_upgrades_cmd_after : Option Unit
  unattended_upgrades_ctx_after : Option Unit
deriving DecidableEq, Repr

/-- `InstallController.run_unattended_upgrades` (`install.py`): writes the apt
config fragment (base plus `all` or security origins depending on `policy`),
records the session (`unattended_upgrades_ctx` / `unattended_upgrades_cmd`) and
awaits the subprocess; a `CalledProcessError` raised by the wait is caught —
the output is logged and `context.description` set to the FAILED annotation —
and afterwards both session fields are reset to `None`; the coroutine returns
normally either way (`Except.ok`). -/
def run_unattended_upgrades (policy : String)
    (wait_result : Except CalledProcessError Unit) :
    Except CalledProcessError UURunOutcome :=
  let conf := AptConfFragment.uu_base ::
    (if policy = "all" then [AptConfFragment.uu_update_all]
     else [AptConfFragment.uu_update_security])
  match wait_result with
  | Except.ok _ =>
      Except.ok { apt_conf := conf, logged_failure := false,
                  description_override := none,
                  unattended_upgrades_cmd_after := none,
                  unattended_upgrades_ctx_after := none }
  | Except.error _ =>
      Except.ok { apt_conf := conf, logged_failure := true,
                  description_override :=
                    some ("FAILED to apply " ++ policy ++ " updates"),
                  unattended_upgrades_cmd_after := none,
                  unattended_upgrades_ctx_after := none }

/-- C8: a non-zero exit of the unattended-upgrades subprocess does not raise:
for every policy and every `CalledProcessError`, `run_unattended_upgrades`
returns normally (`Except.ok`, so the overall install continues) with the
failure logged, the context description annotated as FAILED, and both session
fields cleared to `None`. -/
theorem run_unattended_upgrades_nonfatal (policy : String)
    (cpe : CalledProcessError) :
    run_unattended_upgrades policy (Except.error cpe) =
      Except.ok { apt_conf := AptConfFragment.uu_base ::
                    (if policy = "all" then [AptConfFragment.uu_update_all]
                     else [AptConfFragment.uu_update_security]),
                  logged_failure := true,
                  description_override :=
                    some ("FAILED to apply " ++ policy ++ " updates"),
                  unattended_upgrades_cmd_after := none,
                  unattended_upgrades_ctx_after := none } := rfl

/-! ## Package installation with retries (`install.py`, `install_package`) -/

/-- Observable actions of `install_package`: a download-only curtin invocation, a
backoff sleep of the given number of seconds, or the assume-downloaded unpack
invocation. -/
inductive PkgEvent
  | download
  | sleep (seconds : Nat)
  | unpack
deriving DecidableEq, Repr

/-- The download loop of `install_package`: Python iterates
`for attempt, attempts_remaining in enumerate(reversed(range(3)))`, i.e. the
pairs (0,2), (1,1), (2,0); a `CalledProcessError` from the download invocation
leads to `sleep(1 + attempt * 3)` if attempts remain and to a re-raise
otherwise; a success breaks out.  `fails n` says whether the n-th download
invocation exits non-zero; the result is the event trace and whether the loop
re-raised. -/
def download_loop (fails : Nat → Bool) : Nat → Nat → List PkgEvent × Bool
  | attempt, 0 =>
      if fails attempt then ([PkgEvent.download], true)
      else ([PkgEvent.download], false)
  | attempt, remaining + 1 =>
      if fails attempt then
        let rest := download_loop fails (attempt + 1) remaining
        (PkgEvent.download :: PkgEvent.sleep (1 + attempt * 3) :: rest.1, rest.2)
      else ([PkgEvent.download], false)

/-- `InstallController.install_package` (`install.py`): the three-attempt
download loop followed — only when the loop did not re-raise — by a single
unconditional unpack invocation. -/
def install_package (fails : Nat → Bool) : List PkgEvent × Bool :=
  let run := download_loop fails 0 2
  if run.2 then run else (run.1 ++ [PkgEvent.unpack], false)

/-- C5: `install_package` makes at most 3 download attempts for every failure
pattern; when the download fails twice and succeeds on the third attempt the
trace is download, sleep 1s, download, sleep 4s, download, unpack — exactly two
backoff sleeps and exactly one unpack afterwards; when all three attempts fail
the failure propagates (re-raise) after 3 downloads and 2 sleeps, and unpack
never runs. -/
theorem install_package_retry_spec :
    (∀ fails : Nat → Bool,
      (install_package fails).1.count PkgEvent.download ≤ 3) ∧
    ((install_package (fun n => decide (n < 2))).1 =
        [PkgEvent.download, PkgEvent.sleep 1, PkgEvent.download, PkgEvent.sleep 4,
         PkgEvent.download, PkgEvent.unpack] ∧
      (install_package (fun n => decide (n < 2))).2 = false) ∧
    ((install_package (fun _ => true)).1 =
        [PkgEvent.download, PkgEvent.sleep 1, PkgEvent.download, PkgEvent.sleep 4,
         PkgEvent.download] ∧
      (install_package (fun _ => true)).2 = true ∧
      (install_package (fun _ => true)).1.count PkgEvent.unpack = 0) := by
  refine ⟨?_, by decide, by decide⟩
  intro fails
  cases h0 : fails 0 <;> cases h1 : fails 1 <;> cases h2 : fails 2 <;>
    simp [install_package, download_loop, h0, h1, h2, List.count_cons,
      List.count_append]

/-! ## The curtin install sequence (`install.py`, `curtin_install`) -/

/-- Observable steps of `InstallController.curtin_install`, in invocation order:
curtin steps by name, the filesystem controller's `setup_encryption` and
`finish_install` hooks, fstab creation, `setup_target`, per-OEM-package
installs and apt updates. -/
inductive CurtinEvent
  | curtin_step (name : String)
  | setup_encryption
  | create_fstab
  | finish_install
  | setup_target
  | install_package_call (package : String)
  | oem_apt_update (package : String)
deriving DecidableEq, Repr

/-- Event trace of `InstallController.curtin_install` (`install.py`): the
`initial` step, then either the core-boot-classic branch (`partitioning` in
DEVICES mode, `setup_encryption` only when `use_tpm`, `formatting`, `extract`,
fstab, `swap`, `finish_install`, `setup_target`) or the classic branch
(`partitioning`, `extract`, `setup_target`, OEM installs, per-package apt
updates and reinstalls when the network is up, `curthooks`); finally the
`populate recovery` step when a reset partition exists. -/
def curtin_install (core_boot_classic use_tpm : Bool) (oem_metapkgs : List String)
    (has_network has_reset_partition : Bool) : List CurtinEvent :=
  [CurtinEvent.curtin_step "initial"] ++
  (if core_boot_classic then
    [CurtinEvent.curtin_step "partitioning"] ++
    (if use_tpm then [CurtinEvent.setup_encryption] else []) ++
    [CurtinEvent.curtin_step "formatting",
     CurtinEvent.curtin_step "extract",
     CurtinEvent.create_fstab,
     CurtinEvent.curtin_step "swap",
     CurtinEvent.finish_install,
     CurtinEvent.setup_target]
  else
    [CurtinEvent.curtin_step "partitioning",
     CurtinEvent.curtin_step "extract",
     CurtinEvent.setup_target] ++
    (oem_metapkgs.map CurtinEvent.install_package_call) ++
    (if has_network then
      (oem_metapkgs.map CurtinEvent.oem_apt_update) ++
        (oem_metapkgs.map CurtinEvent.install_package_call)
     else []) ++
    [CurtinEvent.curtin_step "curthooks"]) ++
  (if has_reset_partition then [CurtinEvent.curtin_step "populate recovery"]
   else [])

/-- C6: in every core-boot-classic run with TPM-backed encryption requested, the
trace starts `initial`, `partitioning`, `setup_encryption`, `formatting` — so
the single `setup_encryption` call happens strictly after the partitioning step
has returned and strictly before the formatting step begins — and
`setup_encryption` occurs exactly once; with `use_tpm` false it is never
invoked, on either branch. -/
theorem curtin_install_setup_encryption_order :
    (∀ (oem_metapkgs : List String) (has_network has_rp : Bool),
      (curtin_install true true oem_metapkgs has_network has_rp).take 4 =
        [CurtinEvent.curtin_step "initial", CurtinEvent.curtin_step "partitioning",
         CurtinEvent.setup_encryption, CurtinEvent.curtin_step "formatting"] ∧
      (curtin_install true true oem_metapkgs has_network has_rp).count
        CurtinEvent.setup_encryption = 1) ∧
    (∀ (core_boot_classic : Bool) (oem_metapkgs : List String)
        (has_network has_rp : Bool),
      CurtinEvent.setup_encryption ∉
        curtin_install core_boot_classic false oem_metapkgs has_network has_rp) := by
  constructor
  · intro oem_metapkgs has_network has_rp
    cases has_rp <;> simp [curtin_install]
  · intro core_boot_classic oem_metapkgs has_network has_rp
    cases core_boot_classic <;> cases has_network <;> cases has_rp <;>
      simp [curtin_install, List.mem_append, List.mem_map]

/-! ## The install state machine (`install.py`, `install`) -/

/-- Observable events of a run of `InstallController.install`: `update_state`
calls interleaved with the awaited phases. -/
inductive InstallEvent
  | update_state (s : ApplicationState)
  | wait_install
  | model_confirm
  | wait_confirmation
  | configure_apt
  | broadcast_apt_configured
  | unmount_target
  | curtin_install_step
  | wait_postinstall
  | postinstall_config
  | run_uu
  | restore_apt_config
deriving DecidableEq, Repr

/-- One iteration of the confirmation loop of `install()`: update to `WAITING`,
await the install trigger, auto-confirm for non-interactive autoinstall runs,
update to `NEEDS_CONFIRMATION`, await confirmation. -/
def confirm_loop_body (interactive autoinstall : Bool) : List InstallEvent :=
  [InstallEvent.update_state ApplicationState.WAITING, InstallEvent.wait_install] ++
  (if !interactive && autoinstall then [InstallEvent.model_confirm] else []) ++
  [InstallEvent.update_state ApplicationState.NEEDS_CONFIRMATION,
   InstallEvent.wait_confirmation]

/-- The confirmation loop with `denials` denied rounds before the confirmed
one. -/
def confirm_loop (interactive autoinstall : Bool) : Nat → List InstallEvent
  | 0 => confirm_loop_body interactive autoinstall
  | n + 1 => confirm_loop_body interactive autoinstall ++
      confirm_loop interactive autoinstall n

/-- Event trace of a successful `InstallController.install()` run
(`install.py`): the confirmation loop, `RUNNING`, apt configuration and
broadcast, optional unmount of an existing target, the curtin install sequence,
`update_state(WAITING)`, the wait for the postinstall trigger, `RUNNING` again,
the postinstall configuration (passing through `UU_RUNNING` when the network is
up), apt restore and `DONE`. -/
def install_run (denials : Nat)
    (interactive autoinstall target_exists has_network : Bool) :
    List InstallEvent :=
  confirm_loop interactive autoinstall denials ++
  [InstallEvent.update_state ApplicationState.RUNNING, InstallEvent.configure_apt,
   InstallEvent.broadcast_apt_configured] ++
  (if target_exists then [InstallEvent.unmount_target] else []) ++
  [InstallEvent.curtin_install_step,
   InstallEvent.update_state ApplicationState.WAITING,
   InstallEvent.wait_postinstall,
   InstallEvent.update_state ApplicationState.RUNNING,
   InstallEvent.postinstall_config] ++
  (if has_network then
    [InstallEvent.update_state ApplicationState.UU_RUNNING, InstallEvent.run_uu]
   else []) ++
  [InstallEvent.restore_apt_config,
   InstallEvent.update_state ApplicationState.DONE]

/-- The state passed to the first `update_state` call that follows the curtin
install sequence in a trace. -/
def first_update_after_curtin (l : List InstallEvent) : Option ApplicationState :=
  match (l.dropWhile (fun e => e != InstallEvent.curtin_install_step)).drop 1 with
  | InstallEvent.update_state s :: _ => some s
  | _ => none

lemma dropWhile_ne_append {α : Type} [DecidableEq α] (x : α) (l1 l2 : List α)
    (h : x ∉ l1) :
    (l1 ++ l2).dropWhile (fun e => e != x) = l2.dropWhile (fun e => e != x) := by
  induction l1 with
  | nil => rfl
  | cons b t ih =>
    have hb : (b != x) = true := by
      simp only [bne_iff_ne, ne_eq]
      intro hbx
      exact h (hbx ▸ List.mem_cons_self b t)
    rw [List.cons_append, List.dropWhile_cons]
    rw [hb]
    simp only [if_true]
    exact ih fun hx => h (List.mem_cons_of_mem b hx)

lemma curtin_marker_not_in_body (interactive autoinstall : Bool) :
    InstallEvent.curtin_install_step ∉ confirm_loop_body interactive autoinstall := by
  cases hc : !interactive && autoinstall <;>
    simp [confirm_loop_body, hc]

lemma curtin_marker_not_in_loop (interactive autoinstall : Bool) (n : Nat) :
    InstallEvent.curtin_install_step ∉ confirm_loop interactive autoinstall n := by
  induction n with
  | zero => exact curtin_marker_not_in_body interactive autoinstall
  | succ n ih =>
    simp only [confirm_loop, List.mem_append]
    rintro (hb | hl)
    · exact curtin_marker_not_in_body interactive autoinstall hb
    · exact ih hl

/-- C4 is false as stated: after the curtin install sequence completes and
before the state machine awaits the postinstall trigger, `install()` calls
`update_state(ApplicationState.WAITING)` — the very same `WAITING` member used
for the initial wait, not a distinct `WAITING_POSTINSTALL` state (`install.py`
references no such member). -/
theorem install_waiting_postinstall_counterexample :
    first_update_after_curtin (install_run 0 true false false false) =
      some ApplicationState.WAITING := by decide

/-- C4 (amended): in every successful install run, after the curtin install
sequence completes and before the state machine awaits the postinstall trigger,
the observable install state transitions to `WAITING` — the same `WAITING`
member of the state enumeration used for the initial wait; the trace contains
the contiguous events curtin sequence, `update_state(WAITING)`, await
postinstall, and the first state update after the curtin sequence is
`WAITING`. -/
theorem install_waits_in_waiting_before_postinstall (denials : Nat)
    (interactive autoinstall target_exists has_network : Bool) :
    ([InstallEvent.curtin_install_step,
      InstallEvent.update_state ApplicationState.WAITING,
      InstallEvent.wait_postinstall] <:+:
        install_run denials interactive autoinstall target_exists has_network) ∧
    first_update_after_curtin
        (install_run denials interactive autoinstall target_exists has_network) =
      some ApplicationState.WAITING := by
  constructor
  · refine ⟨confirm_loop interactive autoinstall denials ++
      [InstallEvent.update_state ApplicationState.RUNNING,
       InstallEvent.configure_apt, InstallEvent.broadcast_apt_configured] ++
      (if target_exists then [InstallEvent.unmount_target] else []),
      [InstallEvent.update_state ApplicationState.RUNNING,
       InstallEvent.postinstall_config] ++
      (if has_network then
        [InstallEvent.update_state ApplicationState.UU_RUNNING, InstallEvent.run_uu]
       else []) ++
      [InstallEvent.restore_apt_config,
       InstallEvent.update_state ApplicationState.DONE], ?_⟩
    simp [install_run]
  · unfold install_run first_update_after_curtin
    simp only [List.append_assoc]
    rw [dropWhile_ne_append _ _ _ (curtin_marker_not_in_loop interactive autoinstall
        denials)]
    rw [dropWhile_ne_append _ _ _ (by simp)]
    cases target_exists
    · rw [if_neg (by simp), List.nil_append, List.cons_append,
        List.dropWhile_cons]
      simp
    · rw [if_pos rfl, dropWhile_ne_append _ _ _ (by simp), List.cons_append,
        List.dropWhile_cons]
      simp

end Subiquity
